import Mathlib

/-!
# PROVENIQ Ops — verification of the hash-chained event-store core

Shallow embedding of the append-only, hash-chained event store described by
the repository's blueprint pack (`src/proveniq_ops_blueprints/README.md`,
`src/proveniq_ops_blueprints/db/schema.sql`) together with the two pieces of
executable frontend/mobile code the claims reference
(`src/frontend/src/components/OpsDashboard.tsx`, the telemetry API service).

The backend command path (`appendEvent`, `verifyChain`, projections) is not
implemented in the repository: only the Postgres DDL and the step-by-step
command-path blueprint exist.  Those definitions are therefore modelled from
the blueprint and the DDL, with gaps filled from the specification; each such
definition carries a doc comment saying what it was modelled from.
-/

set_option maxRecDepth 4000

/-- Emitter classes, translated from `db/schema.sql` line 18:
`CHECK (emitter_class IN ('HUMAN','SYSTEM','LEDGER_EXTERNAL'))`. -/
inductive EmitterClass where
  | HUMAN
  | SYSTEM
  | LEDGER_EXTERNAL
deriving DecidableEq, Repr

/-- Evidence policies, translated from `db/schema.sql` line 23:
`CHECK (evidence_policy IN ('REQUIRED','INHERIT_LAST','WAIVER','OPTIONAL'))`. -/
inductive EvidencePolicy where
  | REQUIRED
  | INHERIT_LAST
  | WAIVER
  | OPTIONAL
deriving DecidableEq, Repr

/-- Chain status of a projection, from `db/schema.sql` line 59
(`chain_status TEXT NOT NULL DEFAULT 'VALID'`) and the spec's
`VALID | CORRUPTED` state machine. -/
inductive ChainStatus where
  | VALID
  | CORRUPTED
deriving DecidableEq, Repr

/-- JSON-like payload values (`payload_json JSONB` in the DDL).
Numbers are integers / fixed-point-decimal strings per the canonicalization
rule in spec §4.1, so no floating point appears. -/
inductive Jval where
  | str (s : String) : Jval
  | int (n : Int) : Jval
  | bool (b : Bool) : Jval
  | null : Jval
  | arr (xs : List Jval) : Jval
  | obj (fields : List (String × Jval)) : Jval

/-- Bytes of a string, one `Nat` per character code. -/
def strBytes (s : String) : List Nat :=
  s.data.map Char.toNat

/-- Fixed-width little-endian base-256 byte expansion (auxiliary). -/
def natBytesFix : Nat → Nat → List Nat
  | 0, _ => []
  | k + 1, n => (n % 256) :: natBytesFix k (n / 256)

/-- A 256-bit hash value rendered as its 32 bytes, used where the blueprint
concatenates a hash into a byte string (`event_hash = sha256(canonical_payload
+ prev_hash + evidence_hash)`). -/
def hashBytes (n : Nat) : List Nat :=
  natBytesFix 32 n

/-- Modelled from the spec: the blueprint's `sha256` (README §0, "Crypto
Integrity").  The cryptographic digest itself is external to the repository;
it is modelled as an executable, deterministic 256-bit digest (a polynomial
rolling hash reduced mod `2 ^ 256`).  Only determinism and the 256-bit output
width matter for the claims. -/
def digest (bytes : List Nat) : Nat :=
  bytes.foldl (fun acc b => (acc * 257 + b % 256 + 1) % 2 ^ 256) 7

/-- Insertion sort of serialized object fields by key, implementing the
"keys sorted lexicographically at every nesting level" rule of spec §4.1. -/
def insertField (kv : String × List Nat) : List (String × List Nat) → List (String × List Nat)
  | [] => [kv]
  | hd :: tl => if kv.1 ≤ hd.1 then kv :: hd :: tl else hd :: insertField kv tl

def sortFields : List (String × List Nat) → List (String × List Nat)
  | [] => []
  | kv :: rest => insertField kv (sortFields rest)

/-- Join serialized items with a comma byte (44). -/
def joinComma : List (List Nat) → List Nat
  | [] => []
  | [x] => x
  | x :: xs => x ++ [44] ++ joinComma xs

mutual

/-- Modelled from the spec: the canonical JSON serializer of spec §4.1 and
README §0 ("canonical JSON serialization"): deterministic byte sequence,
object keys sorted lexicographically at every nesting level, no insignificant
whitespace, integers only.  Not implemented in the repository. -/
def canon : Jval → List Nat
  | .str s => [34] ++ strBytes s ++ [34]
  | .int n => strBytes (toString n)
  | .bool b => if b then strBytes "true" else strBytes "false"
  | .null => strBytes "null"
  | .arr xs => [91] ++ joinComma (canonList xs) ++ [93]
  | .obj fs =>
      [123] ++
        joinComma ((sortFields (canonFields fs)).map
          (fun kv => [34] ++ strBytes kv.1 ++ [34, 58] ++ kv.2)) ++
      [125]

/-- Serialize each element of an array (auxiliary to `canon`). -/
def canonList : List Jval → List (List Nat)
  | [] => []
  | v :: vs => canon v :: canonList vs

/-- Serialize the value of each object field (auxiliary to `canon`);
sorting by key happens afterwards in `canon`. -/
def canonFields : List (String × Jval) → List (String × List Nat)
  | [] => []
  | (k, v) :: fs => (k, canon v) :: canonFields fs

end

/-- The all-zero sentinel evidence hash (spec §3: "a well-defined sentinel
(all-zero hash) when policy permits no evidence"). -/
def sentinelHash : Nat := 0

/-- Modelled from the spec: the "fixed, documented genesis constant" that
`prev_event_hash` of a version-1 event must carry (spec §4.2 edge case).
Modelled as the digest of a fixed tag, so it is a constant and is neither an
empty string nor null. -/
def genesisHash : Nat :=
  digest (strBytes "PROVENIQ_OPS_GENESIS")

/-- Modelled from the spec / README §4 step 8: "Compute event_hash with
prev_hash + evidence_hash"; README §0: `event_hash = sha256(canonical_payload
+ prev_hash + evidence_hash)`. -/
def computeEventHash (payload : Jval) (prevHash evidenceHash : Nat) : Nat :=
  digest (canon payload ++ hashBytes prevHash ++ hashBytes evidenceHash)

/-- Modelled from the spec: the Ed25519 signature of README §4 step 9, as the
opaque sign oracle of spec §4.3 keyed by the emitter's identity. -/
def signEv (eventHash : Nat) (emitter : String) : Nat :=
  digest (hashBytes eventHash ++ strBytes emitter)

theorem digest_lt (bytes : List Nat) : digest bytes < 2 ^ 256 := by
  unfold digest
  induction bytes using List.reverseRecOn with
  | nil => decide
  | append_singleton xs x _ =>
      rw [List.foldl_append]
      exact Nat.mod_lt _ (by positivity)

/-- Modelled from the spec: the closed, versioned event-type registry
(spec §3, README §4 step 2 "Validate event_type in registry").  The concrete
registry file `contracts/event_types.json` is not in the repository; the
entries here are the event types named by the blueprint (README §5, §7 and
`contracts/json_schemas`), each paired with its payload-schema check,
modelled as the base-event requirement that the payload is a JSON object. -/
def isObjPayload : Jval → Bool
  | .obj _ => true
  | _ => false

def registry : List (String × (Jval → Bool)) :=
  [("ASSET_LOSS_REPORTED", isObjPayload),
   ("SECURITY_WAIVER_GRANTED", isObjPayload),
   ("RECOMMENDATION_EMITTED", isObjPayload),
   ("RECOMMENDATION_ACCEPTED", isObjPayload),
   ("RECOMMENDATION_REJECTED", isObjPayload),
   ("LOSS_AUTHORIZED", isObjPayload),
   ("LOSS_DENIED", isObjPayload),
   ("LEDGER_SYNC_FAILED", isObjPayload)]

/-- Per-type schema lookup in the registry. -/
def schemaOf (eventType : String) : Option (Jval → Bool) :=
  (registry.find? (fun p => p.1 == eventType)).map (fun p => p.2)

/-- Modelled from the spec: the static role -> event-type policy table
(spec §4.4 step "RBAC check", README §4 step 3, README §5 and §7: Bishop as
SYSTEM emits recommendations only; ledger decisions arrive as
LEDGER_EXTERNAL; humans report losses, grant waivers and accept or reject
recommendations).  `contracts/rbac.yaml` is not in the repository. -/
def rbacAllowed : EmitterClass → String → Bool
  | .HUMAN, t =>
      ["ASSET_LOSS_REPORTED", "SECURITY_WAIVER_GRANTED",
       "RECOMMENDATION_ACCEPTED", "RECOMMENDATION_REJECTED"].contains t
  | .SYSTEM, t =>
      ["RECOMMENDATION_EMITTED", "RECOMMENDATION_ACCEPTED",
       "RECOMMENDATION_REJECTED"].contains t
  | .LEDGER_EXTERNAL, t =>
      ["LOSS_AUTHORIZED", "LOSS_DENIED", "LEDGER_SYNC_FAILED"].contains t

/-- An append command, carrying the inputs of README §4 / spec §4.4:
`entity_id` comes from the authenticated context, `expected_version` from the
`If-Match` header, `idempotency_key` from the `Idempotency-Key` header. -/
structure Command where
  asset_id : Nat
  entity_id : Nat
  expected_version : Nat
  event_type : String
  emitter_class : EmitterClass
  emitter_id : String
  payload : Jval
  evidence_policy : EvidencePolicy
  evidence_hash : Nat
  waiver_reason : String
  idempotency_key : String

/-- A stored event row, translated from the `event_store` table of
`db/schema.sql` (identifiers and timestamps as `Nat`, hashes as 256-bit
`Nat` values). -/
structure StoredEvent where
  event_id : Nat
  asset_id : Nat
  entity_id : Nat
  aggregate_version : Nat
  event_type : String
  emitter_class : EmitterClass
  emitter_id : String
  occurred_at : Nat
  evidence_policy : EvidencePolicy
  evidence_hash : Nat
  waiver_reason : String
  payload : Jval
  prev_event_hash : Nat
  event_hash : Nat
  signature : Nat

/-- A projection row, translated from the `asset_projection` table of
`db/schema.sql` (the business columns beyond the chain bookkeeping are
represented by the folded `status` field). -/
structure Projection where
  asset_id : Nat
  entity_id : Nat
  aggregate_version : Nat
  status : String
  chain_status : ChainStatus
  last_event_hash : Nat
  last_prev_hash : Nat

/-- An outbox row, translated from the `outbox_webhooks` table of
`db/schema.sql`. -/
inductive OutboxStatus where
  | PENDING
  | SENT
  | FAILED
deriving DecidableEq, Repr

structure OutboxEntry where
  outbox_id : Nat
  entity_id : Nat
  topic : String
  event_id : Nat
  attempts : Nat
  next_attempt_at : Nat
  status : OutboxStatus

/-- The response of a successful append (README §4 step 13: "Return response
with new version + event_hash"). -/
structure AppendResponse where
  event_id : Nat
  aggregate_version : Nat
  event_hash : Nat
deriving DecidableEq, Repr

/-- An idempotency row, translated from the `idempotency_keys` table of
`db/schema.sql`: keyed by `(entity_id, idempotency_key)`, storing a hash of
the original request and the response that was returned. -/
structure IdemRecord where
  entity_id : Nat
  idempotency_key : String
  request_hash : Nat
  response : AppendResponse

/-- The whole durable state: event store, projections, outbox and
idempotency rows, plus the id generator and the store-side clock
(spec §3: `occurred_at` is supplied by the store at append time). -/
structure State where
  events : List StoredEvent
  projections : List Projection
  outbox : List OutboxEntry
  idem : List IdemRecord
  nextEventId : Nat
  now : Nat

def initState : State :=
  ⟨[], [], [], [], 0, 0⟩

/-- Events stored for one asset, in append order. -/
def eventsFor (s : State) (a : Nat) : List StoredEvent :=
  s.events.filter (fun e => e.asset_id == a)

/-- The current aggregate version of an asset (README §4 step 5 fetches it;
each asset's versions are 1..N, so it is the number of stored events). -/
def currentVersion (s : State) (a : Nat) : Nat :=
  (eventsFor s a).length

/-- The latest stored `event_hash` for an asset, or the genesis constant if
the asset has no events yet (spec §4.4 step 6). -/
def latestHash (s : State) (a : Nat) : Nat :=
  match (eventsFor s a).getLast? with
  | some e => e.event_hash
  | none => genesisHash

/-- The projection row of an asset, if one exists. -/
def projFor (s : State) (a : Nat) : Option Projection :=
  s.projections.find? (fun p => p.asset_id == a)

/-- The chain status of an asset: its projection's `chain_status`, or the
DDL default `VALID` when no projection row exists yet. -/
def chainStatusOf (s : State) (a : Nat) : ChainStatus :=
  match projFor s a with
  | some p => p.chain_status
  | none => .VALID

/-- Modelled from the spec: the hash of the original request stored in
`idempotency_keys.request_hash`; it covers the request body (not the
`If-Match` and `Idempotency-Key` headers). -/
def requestHash (c : Command) : Nat :=
  digest (hashBytes c.asset_id ++ strBytes c.event_type ++ canon c.payload ++
    hashBytes c.evidence_hash ++ strBytes c.waiver_reason ++
    strBytes c.emitter_id)

/-- Modelled from the spec: the event-type-specific pure reducer dispatch of
spec §4.5, folding an event's effect into the projection's business status. -/
def foldStatus (old : String) (eventType : String) : String :=
  if eventType == "ASSET_LOSS_REPORTED" then "LOSS_REPORTED"
  else if eventType == "LOSS_AUTHORIZED" then "LOSS_AUTHORIZED"
  else if eventType == "LOSS_DENIED" then "ACTIVE"
  else old

/-- Modelled from the spec: `applyEvent(projection, event) -> projection'`
(spec §4.5): pure, and a no-op unless the event is the projection's next
version, so accidental double application is idempotent. -/
def applyEvent (p : Projection) (e : StoredEvent) : Projection :=
  if e.aggregate_version = p.aggregate_version + 1 then
    { p with
      aggregate_version := e.aggregate_version,
      status := foldStatus p.status e.event_type,
      last_event_hash := e.event_hash,
      last_prev_hash := e.prev_event_hash }
  else p

/-- The projection row created lazily on the first event of an asset
(spec §3, projection lifecycle). -/
def initProjection (e : StoredEvent) : Projection :=
  { asset_id := e.asset_id,
    entity_id := e.entity_id,
    aggregate_version := e.aggregate_version,
    status := foldStatus "ACTIVE" e.event_type,
    chain_status := .VALID,
    last_event_hash := e.event_hash,
    last_prev_hash := e.prev_event_hash }

/-- Update (or lazily create) the projection row of the appended event's
asset (README §4 step 11). -/
def upsertProjection (ps : List Projection) (e : StoredEvent) : List Projection :=
  if ps.any (fun p => p.asset_id == e.asset_id) then
    ps.map (fun p => if p.asset_id == e.asset_id then applyEvent p e else p)
  else
    ps ++ [initProjection e]

/-- Failure conditions of the append path (spec §4.4 failure conditions,
plus the permanent rejection of writes to a `CORRUPTED` asset, spec §4.8). -/
inductive AppendError where
  | UnknownEventType
  | SchemaValidation
  | Forbidden
  | EvidenceRequired
  | WaiverReasonMissing
  | AssetCorrupted
  | VersionConflict
  | DuplicateIdempotencyKeyMismatch
deriving DecidableEq, Repr

inductive AppendResult where
  | ok (r : AppendResponse) : AppendResult
  | err (e : AppendError) : AppendResult
deriving DecidableEq, Repr

/-- The event row built for a command that passed every check. -/
def freshEvent (s : State) (c : Command) : StoredEvent :=
  { event_id := s.nextEventId,
    asset_id := c.asset_id,
    entity_id := c.entity_id,
    aggregate_version := currentVersion s c.asset_id + 1,
    event_type := c.event_type,
    emitter_class := c.emitter_class,
    emitter_id := c.emitter_id,
    occurred_at := s.now,
    evidence_policy := c.evidence_policy,
    evidence_hash := c.evidence_hash,
    waiver_reason := c.waiver_reason,
    payload := c.payload,
    prev_event_hash := latestHash s c.asset_id,
    event_hash := computeEventHash c.payload (latestHash s c.asset_id) c.evidence_hash,
    signature := signEv (computeEventHash c.payload (latestHash s c.asset_id) c.evidence_hash) c.emitter_id }

def freshResponse (s : State) (c : Command) : AppendResponse :=
  ⟨s.nextEventId, currentVersion s c.asset_id + 1, (freshEvent s c).event_hash⟩

/-- The state after the atomic transaction of README §4 steps 10-12 /
spec §4.4 step 7: insert the event row, update the projection, insert the
outbox record, store the idempotency response — all in one durable unit. -/
def successState (s : State) (c : Command) : State :=
  { events := s.events ++ [freshEvent s c],
    projections := upsertProjection s.projections (freshEvent s c),
    outbox := s.outbox ++
      [⟨s.nextEventId, c.entity_id, "ops.events", s.nextEventId, 0, s.now, .PENDING⟩],
    idem := s.idem ++ [⟨c.entity_id, c.idempotency_key, requestHash c, freshResponse s c⟩],
    nextEventId := s.nextEventId + 1,
    now := s.now + 1 }

/-- Look up the idempotency row keyed by `(entity_id, idempotency_key)`
(`idempotency_keys` primary key in `db/schema.sql`). -/
def idemLookup (s : State) (c : Command) : Option IdemRecord :=
  s.idem.find? (fun r =>
    r.entity_id == c.entity_id && r.idempotency_key == c.idempotency_key)

/-- Modelled from the spec: `appendEvent(command)`.  Not implemented in the
repository; the check order follows the repository's own command-path
blueprint, README §4 "Steps (server MUST enforce)": (2) event type in
registry and payload schema, (3) emitter RBAC, (4) evidence policy,
(5) optimistic concurrency against the current aggregate state (which is
also where a `CORRUPTED` asset permanently rejects writes, spec §4.8),
(6) idempotency, then (7-13) the atomic hash/sign/append transaction.
What each check does is filled in from spec §4.4: an idempotency hit with a
matching request hash returns the stored response verbatim, a reused key
with a different request is rejected. -/
def appendEvent (s : State) (c : Command) : AppendResult × State :=
  match schemaOf c.event_type with
  | none => (.err .UnknownEventType, s)
  | some schema =>
    if schema c.payload = false then (.err .SchemaValidation, s)
    else if rbacAllowed c.emitter_class c.event_type = false then (.err .Forbidden, s)
    else if c.evidence_policy = .REQUIRED ∧ c.evidence_hash = sentinelHash then
      (.err .EvidenceRequired, s)
    else if c.evidence_policy = .WAIVER ∧ c.waiver_reason = "" then
      (.err .WaiverReasonMissing, s)
    else if chainStatusOf s c.asset_id = .CORRUPTED then (.err .AssetCorrupted, s)
    else if currentVersion s c.asset_id ≠ c.expected_version then
      (.err .VersionConflict, s)
    else
      match idemLookup s c with
      | some r =>
          if r.request_hash = requestHash c then (.ok r.response, s)
          else (.err .DuplicateIdempotencyKeyMismatch, s)
      | none => (.ok (freshResponse s c), successState s c)

/-- Run a sequence of append commands against the store. -/
def runTrace (s : State) : List Command → State
  | [] => s
  | c :: cs => runTrace (appendEvent s c).2 cs

/-- Result of a chain verification walk (spec §4.2:
`verifyChain(events) -> VALID | brokenAtVersion`). -/
inductive ChainResult where
  | valid
  | brokenAt (version : Nat)
deriving DecidableEq, Repr

/-- One link check of the chain walk: the event must point at the hash of
its predecessor (the genesis constant for the first event) and its stored
`event_hash` must recompute from its stored fields. -/
def stepOkB (prev : Nat) (e : StoredEvent) : Bool :=
  e.prev_event_hash == prev &&
    e.event_hash == computeEventHash e.payload e.prev_event_hash e.evidence_hash

/-- Modelled from the spec: the walk of `verifyChain` (spec §4.2),
generalized over the hash the next event must point at. -/
def verifyChainFrom (prev : Nat) : List StoredEvent → ChainResult
  | [] => .valid
  | e :: rest =>
      if stepOkB prev e then verifyChainFrom e.event_hash rest
      else .brokenAt e.aggregate_version

/-- Modelled from the spec: `verifyChain(events: ordered list)` (spec §4.2):
walks the list in ascending version order, confirming each link and each
recomputed hash, with version 1 checked against the fixed genesis constant;
returns the first version at which the chain fails, or VALID.  Not
implemented in the repository. -/
def verifyChain (events : List StoredEvent) : ChainResult :=
  verifyChainFrom genesisHash events

/-- The hash the event at index `i` must point at, per the claim's own
wording: the previous event's `event_hash`, or the genesis constant at
index 0. -/
def prevHashAt (g : Nat) (events : List StoredEvent) : Nat → Nat
  | 0 => g
  | i + 1 =>
      match events.get? i with
      | some e => e.event_hash
      | none => 0

/-- Declarative chain correctness, following the words of the claim: every
event's stored hash recomputes, every event at index `i > 0` points at the
previous event's `event_hash`, and the first event points at the genesis
constant. -/
def chainOkFrom (g : Nat) (events : List StoredEvent) : Prop :=
  ∀ i e, events.get? i = some e → stepOkB (prevHashAt g events i) e = true

/-- Mark an asset's projection `CORRUPTED` (spec §4.8: chain verification
failure is fatal for that asset's trust). -/
def markCorrupted (s : State) (a : Nat) : State :=
  { s with
    projections := s.projections.map
      (fun p => if p.asset_id == a then { p with chain_status := .CORRUPTED } else p) }

/-- Operations of the per-asset corruption state machine (spec §4.8): the
application's append path, a chain-verification audit, and an out-of-band
storage-layer tamper with a stored payload (the threat the chain detects;
the application role itself never updates events). -/
inductive Op where
  | append (c : Command) : Op
  | verify (a : Nat) : Op
  | tamper (a : Nat) (version : Nat) (p : Jval) : Op

def step (s : State) : Op → State
  | .append c => (appendEvent s c).2
  | .verify a =>
      match verifyChain (eventsFor s a) with
      | .valid => s
      | .brokenAt _ => markCorrupted s a
  | .tamper a v p =>
      { s with
        events := s.events.map
          (fun e => if e.asset_id == a && e.aggregate_version == v then
              { e with payload := p } else e) }

def runOps (s : State) : List Op → State
  | [] => s
  | op :: ops => runOps (step s op) ops

/-- The read path (spec §6 `GET .../projection` and `GET .../events`):
returns the projection snapshot and the ordered raw event list.  Reads are
not gated on `chain_status` (spec §4.8: reads of a CORRUPTED asset are still
served, for forensics). -/
def readAsset (s : State) (a : Nat) : Option Projection × List StoredEvent :=
  (projFor s a, eventsFor s a)

/-! ## Structure of one append call -/

/-- Every branch of the append path either leaves the state untouched (all
rejections, and an idempotent replay) or commits the full atomic
transaction. -/
theorem appendEvent_state_cases (s : State) (c : Command) :
    (appendEvent s c).2 = s ∨
      appendEvent s c = (.ok (freshResponse s c), successState s c) := by
  unfold appendEvent
  repeat' split
  all_goals first | (left; rfl) | (right; rfl)

theorem events_appendEvent (s : State) (c : Command) :
    (appendEvent s c).2.events = s.events ∨
      (appendEvent s c).2.events = s.events ++ [freshEvent s c] := by
  rcases appendEvent_state_cases s c with h | h
  · left; rw [h]
  · right; rw [h]; rfl

/-! ## C1: the stored `event_hash` always recomputes from stored fields -/

/-- The bit-exact contract of spec §6 for one stored row: the stored
`event_hash` equals the digest of the canonical payload, the stored
`prev_event_hash` and the stored `evidence_hash`. -/
def hashOk (e : StoredEvent) : Bool :=
  e.event_hash == computeEventHash e.payload e.prev_event_hash e.evidence_hash

theorem hashOk_freshEvent (s : State) (c : Command) :
    hashOk (freshEvent s c) = true := by
  simp [hashOk, freshEvent]

theorem all_hashOk_appendEvent (s : State) (c : Command)
    (h : s.events.all hashOk = true) :
    (appendEvent s c).2.events.all hashOk = true := by
  rcases events_appendEvent s c with he | he <;> rw [he]
  · exact h
  · simp [List.all_append, h, hashOk_freshEvent]

theorem all_hashOk_runTrace (s : State) (cs : List Command)
    (h : s.events.all hashOk = true) :
    (runTrace s cs).events.all hashOk = true := by
  induction cs generalizing s with
  | nil => exact h
  | cons c cs ih => exact ih _ (all_hashOk_appendEvent s c h)

/-- C1.  For every stored event, `event_hash` equals
`digest(canonical(payload) ∥ prev_event_hash ∥ evidence_hash)`: in any state
reachable from the empty store by append calls, recomputing the 256-bit hash
via `computeEventHash` from the stored `payload`, `prev_event_hash` and
`evidence_hash` reproduces the stored `event_hash` of every event, so an
independent auditor can reproduce it from the stored fields alone. -/
theorem event_hash_reproducible_c1 (cs : List Command) :
    (runTrace initState cs).events.all hashOk = true :=
  all_hashOk_runTrace initState cs rfl

/-! ## C2: versions per asset are exactly 1..N -/

/-- The `aggregate_version` values stored for one asset, in append order. -/
def versionsOf (s : State) (a : Nat) : List Nat :=
  (eventsFor s a).map (fun e => e.aggregate_version)

theorem eventsFor_appendEvent (s : State) (c : Command) (a : Nat) :
    eventsFor (appendEvent s c).2 a = eventsFor s a ∨
      (a = c.asset_id ∧
        eventsFor (appendEvent s c).2 a = eventsFor s a ++ [freshEvent s c]) := by
  rcases events_appendEvent s c with he | he
  · left; unfold eventsFor; rw [he]
  · by_cases ha : c.asset_id = a
    · right
      refine ⟨ha.symm, ?_⟩
      unfold eventsFor
      rw [he, List.filter_append]
      simp [freshEvent, ha]
    · left
      unfold eventsFor
      rw [he, List.filter_append]
      simp [freshEvent, ha]

theorem versionsOf_appendEvent (s : State) (c : Command) (a : Nat)
    (h : versionsOf s a = List.range' 1 (currentVersion s a)) :
    versionsOf (appendEvent s c).2 a
      = List.range' 1 (currentVersion (appendEvent s c).2 a) := by
  rcases eventsFor_appendEvent s c a with he | ⟨rfl, he⟩
  · unfold versionsOf currentVersion
    rw [he]
    exact h
  · unfold versionsOf currentVersion
    rw [he, List.map_append, List.length_append]
    unfold versionsOf at h
    rw [h]
    have hv : (freshEvent s c).aggregate_version = currentVersion s c.asset_id + 1 := rfl
    simp only [List.map_cons, List.map_nil, hv, List.length_singleton]
    rw [List.range'_concat]
    unfold currentVersion
    simp
    omega

theorem versionsOf_runTrace (s : State) (cs : List Command)
    (h : ∀ a, versionsOf s a = List.range' 1 (currentVersion s a)) :
    ∀ a, versionsOf (runTrace s cs) a
      = List.range' 1 (currentVersion (runTrace s cs) a) := by
  induction cs generalizing s with
  | nil => exact h
  | cons c cs ih =>
      exact ih _ (fun a => versionsOf_appendEvent s c a (h a))

/-- C2.  For every asset, the stored `aggregate_version` values are exactly
`{1, 2, ..., N}` with no gaps and no duplicates: in any state reachable from
the empty store by append calls, the versions of an asset's events, in
append order, form the list `[1, ..., N]` where `N` is the number of stored
events for that asset — so versions start at 1 and exactly one event exists
per `(asset_id, aggregate_version)` pair. -/
theorem versions_exactly_one_to_n_c2 (cs : List Command) (a : Nat) :
    versionsOf (runTrace initState cs) a
      = List.range' 1 (currentVersion (runTrace initState cs) a) :=
  versionsOf_runTrace initState cs (fun _ => rfl) a

/-! ## C3: position of the idempotency check in the command path -/

/-- The command's event type is registered and its payload validates against
that type's schema (README §4 step 2). -/
def validationPasses (c : Command) : Prop :=
  ∃ sch, schemaOf c.event_type = some sch ∧ sch c.payload = true

/-- The command passes the evidence-policy check (README §4 step 4,
spec §4.4 step 4). -/
def evidencePasses (c : Command) : Prop :=
  ¬(c.evidence_policy = .REQUIRED ∧ c.evidence_hash = sentinelHash) ∧
  ¬(c.evidence_policy = .WAIVER ∧ c.waiver_reason = "")

/-- C3 (amended).  The command path checks run in the order of README §4
steps 2-6: schema/registry validation, RBAC, evidence policy, concurrency
(where a CORRUPTED asset is also rejected), and only then idempotency; each
step's failure short-circuits all later steps and leaves the state
untouched; an idempotency hit — reached only after every earlier check
passes — returns the stored response verbatim with no second append, and a
reused key with a different request hash is rejected. -/
theorem idempotency_runs_sixth_c3 (s : State) (c : Command) :
    (schemaOf c.event_type = none →
      appendEvent s c = (.err .UnknownEventType, s)) ∧
    (∀ sch, schemaOf c.event_type = some sch → sch c.payload = false →
      appendEvent s c = (.err .SchemaValidation, s)) ∧
    (validationPasses c → rbacAllowed c.emitter_class c.event_type = false →
      appendEvent s c = (.err .Forbidden, s)) ∧
    (validationPasses c → rbacAllowed c.emitter_class c.event_type = true →
      c.evidence_policy = .REQUIRED → c.evidence_hash = sentinelHash →
      appendEvent s c = (.err .EvidenceRequired, s)) ∧
    (validationPasses c → rbacAllowed c.emitter_class c.event_type = true →
      c.evidence_policy = .WAIVER → c.waiver_reason = "" →
      appendEvent s c = (.err .WaiverReasonMissing, s)) ∧
    (validationPasses c → rbacAllowed c.emitter_class c.event_type = true →
      evidencePasses c → chainStatusOf s c.asset_id = .CORRUPTED →
      appendEvent s c = (.err .AssetCorrupted, s)) ∧
    (validationPasses c → rbacAllowed c.emitter_class c.event_type = true →
      evidencePasses c → chainStatusOf s c.asset_id ≠ .CORRUPTED →
      currentVersion s c.asset_id ≠ c.expected_version →
      appendEvent s c = (.err .VersionConflict, s)) ∧
    (validationPasses c → rbacAllowed c.emitter_class c.event_type = true →
      evidencePasses c → chainStatusOf s c.asset_id ≠ .CORRUPTED →
      currentVersion s c.asset_id = c.expected_version →
      (∀ r, idemLookup s c = some r → r.request_hash = requestHash c →
        appendEvent s c = (.ok r.response, s)) ∧
      (∀ r, idemLookup s c = some r → r.request_hash ≠ requestHash c →
        appendEvent s c = (.err .DuplicateIdempotencyKeyMismatch, s)) ∧
      (idemLookup s c = none →
        appendEvent s c = (.ok (freshResponse s c), successState s c))) := by
  refine ⟨?_, ?_, ?_, ?_, ?_, ?_, ?_, ?_⟩
  · intro h
    simp [appendEvent, h]
  · intro sch hs hp
    simp [appendEvent, hs, hp]
  · rintro ⟨sch, hs, hp⟩ hr
    simp [appendEvent, hs, hp, hr]
  · rintro ⟨sch, hs, hp⟩ hr hpol hev
    simp [appendEvent, hs, hp, hr, hpol, hev]
  · rintro ⟨sch, hs, hp⟩ hr hpol hw
    simp [appendEvent, hs, hp, hr, hpol, hw]
  · rintro ⟨sch, hs, hp⟩ hr ⟨he1, he2⟩ hcor
    simp [appendEvent, hs, hp, hr, he1, he2, hcor]
  · rintro ⟨sch, hs, hp⟩ hr ⟨he1, he2⟩ hcor hver
    simp [appendEvent, hs, hp, hr, he1, he2, hcor, hver]
  · rintro ⟨sch, hs, hp⟩ hr ⟨he1, he2⟩ hcor hver
    refine ⟨?_, ?_, ?_⟩
    · intro r hir hreq
      simp [appendEvent, hs, hp, hr, he1, he2, hcor, hver, hir, hreq]
    · intro r hir hreq
      simp [appendEvent, hs, hp, hr, he1, he2, hcor, hver, hir, hreq]
    · intro hir
      simp [appendEvent, hs, hp, hr, he1, he2, hcor, hver, hir]

/-- A representative well-formed command (a human reporting an asset loss),
used to instantiate the theorems on concrete inputs. -/
def cmdLoss : Command :=
  { asset_id := 1,
    entity_id := 7,
    expected_version := 0,
    event_type := "ASSET_LOSS_REPORTED",
    emitter_class := .HUMAN,
    emitter_id := "user-1",
    payload := .obj [],
    evidence_policy := .OPTIONAL,
    evidence_hash := 5,
    waiver_reason := "",
    idempotency_key := "K1" }

/-- A state whose idempotency table already records `(entity 7, key "KEYX")`
with stored response `⟨11, 1, 22⟩`. -/
def idemPreState : State :=
  { initState with idem := [⟨7, "KEYX", 0, ⟨11, 1, 22⟩⟩] }

/-- The replay of a request on entity 7 under key "KEYX" whose event type is
not in the registry. -/
def cmdUnknownReplay : Command :=
  { cmdLoss with event_type := "BOGUS_TYPE", idempotency_key := "KEYX" }

/-- C3 (counterexample).  The claim says the idempotency check runs first:
with `(entity_id, idempotency_key)` already recorded, the stored response is
returned verbatim and no later step runs.  On the command path of README §4
(idempotency at step 6) this fails: here `(7, "KEYX")` is recorded with
stored response `⟨11, 1, 22⟩`, yet the registry validation of step 2 runs
and the call returns `UnknownEventType` instead of the stored response. -/
theorem idempotency_runs_sixth_c3_counterexample :
    idemLookup idemPreState cmdUnknownReplay
      = some ⟨7, "KEYX", 0, ⟨11, 1, 22⟩⟩ ∧
    appendEvent idemPreState cmdUnknownReplay
      = (.err .UnknownEventType, idemPreState) ∧
    (appendEvent idemPreState cmdUnknownReplay).1
      ≠ .ok (⟨11, 1, 22⟩ : AppendResponse) := by
  refine ⟨rfl, rfl, ?_⟩
  decide

/-- A state whose idempotency table records the hash of `cmdLoss` under the
key `cmdLoss` itself uses, with stored response `⟨99, 1, 42⟩`. -/
def idemHitState : State :=
  { initState with idem := [⟨7, "K1", requestHash cmdLoss, ⟨99, 1, 42⟩⟩] }

/-- A state whose idempotency table records, under the key `cmdLoss` uses, a
request hash that differs from the hash of `cmdLoss`. -/
def idemMismatchState : State :=
  { initState with idem := [⟨7, "K1", requestHash cmdLoss + 1, ⟨99, 1, 42⟩⟩] }

/-- A state whose only projection row marks asset 1 `CORRUPTED`. -/
def corruptedState : State :=
  { initState with projections := [⟨1, 7, 1, "ACTIVE", .CORRUPTED, 3, 2⟩] }

instance (c : Command) : Decidable (evidencePasses c) := by
  unfold evidencePasses
  infer_instance

/-- C3 (witness).  Each stage of the amended order, instantiated on concrete
states and commands. -/
theorem idempotency_runs_sixth_c3_witness :
    appendEvent initState cmdUnknownReplay = (.err .UnknownEventType, initState) ∧
    appendEvent initState { cmdLoss with payload := .null }
      = (.err .SchemaValidation, initState) ∧
    appendEvent initState { cmdLoss with event_type := "LOSS_AUTHORIZED" }
      = (.err .Forbidden, initState) ∧
    appendEvent initState { cmdLoss with evidence_policy := .REQUIRED, evidence_hash := 0 }
      = (.err .EvidenceRequired, initState) ∧
    appendEvent initState { cmdLoss with evidence_policy := .WAIVER }
      = (.err .WaiverReasonMissing, initState) ∧
    appendEvent corruptedState cmdLoss = (.err .AssetCorrupted, corruptedState) ∧
    appendEvent initState { cmdLoss with expected_version := 3 }
      = (.err .VersionConflict, initState) ∧
    appendEvent idemHitState cmdLoss
      = (.ok (⟨99, 1, 42⟩ : AppendResponse), idemHitState) ∧
    appendEvent idemMismatchState cmdLoss
      = (.err .DuplicateIdempotencyKeyMismatch, idemMismatchState) ∧
    appendEvent initState cmdLoss
      = (.ok (freshResponse initState cmdLoss), successState initState cmdLoss) := by
  refine ⟨?_, ?_, ?_, ?_, ?_, ?_, ?_, ?_, ?_, ?_⟩
  · exact (idempotency_runs_sixth_c3 initState cmdUnknownReplay).1 rfl
  · exact (idempotency_runs_sixth_c3 initState
      { cmdLoss with payload := .null }).2.1 isObjPayload rfl rfl
  · exact (idempotency_runs_sixth_c3 initState
      { cmdLoss with event_type := "LOSS_AUTHORIZED" }).2.2.1
      ⟨isObjPayload, rfl, rfl⟩ (by decide)
  · exact (idempotency_runs_sixth_c3 initState
      { cmdLoss with evidence_policy := .REQUIRED, evidence_hash := 0 }).2.2.2.1
      ⟨isObjPayload, rfl, rfl⟩ (by decide) rfl rfl
  · exact (idempotency_runs_sixth_c3 initState
      { cmdLoss with evidence_policy := .WAIVER }).2.2.2.2.1
      ⟨isObjPayload, rfl, rfl⟩ (by decide) rfl rfl
  · exact (idempotency_runs_sixth_c3 corruptedState cmdLoss).2.2.2.2.2.1
      ⟨isObjPayload, rfl, rfl⟩ (by decide) (by decide) rfl
  · exact (idempotency_runs_sixth_c3 initState
      { cmdLoss with expected_version := 3 }).2.2.2.2.2.2.1
      ⟨isObjPayload, rfl, rfl⟩ (by decide) (by decide) (by decide) (by decide)
  · exact ((idempotency_runs_sixth_c3 idemHitState cmdLoss).2.2.2.2.2.2.2
      ⟨isObjPayload, rfl, rfl⟩ (by decide) (by decide) (by decide) rfl).1
      ⟨7, "K1", requestHash cmdLoss, ⟨99, 1, 42⟩⟩ rfl rfl
  · exact ((idempotency_runs_sixth_c3 idemMismatchState cmdLoss).2.2.2.2.2.2.2
      ⟨isObjPayload, rfl, rfl⟩ (by decide) (by decide) (by decide) rfl).2.1
      ⟨7, "K1", requestHash cmdLoss + 1, ⟨99, 1, 42⟩⟩ rfl (Nat.succ_ne_self _)
  · exact ((idempotency_runs_sixth_c3 initState cmdLoss).2.2.2.2.2.2.2
      ⟨isObjPayload, rfl, rfl⟩ (by decide) (by decide) (by decide) rfl).2.2 rfl

/-! ## C5: evidence-policy enforcement -/

/-- C5.  For a command whose event type and payload validate and whose
emitter is authorized, the evidence-policy check of the command path
(README §4 step 4, spec §4.4 step 4) enforces: `REQUIRED` with the all-zero
sentinel `evidence_hash` is rejected with `EvidenceRequired`, and `WAIVER`
with an empty `waiver_reason` is rejected with `WaiverReasonMissing` — both
client (422-class) errors per spec §6/§7 — with the state untouched; the
same request with `evidence_policy = WAIVER` and a non-empty `waiver_reason`
passes the evidence check and (meeting the later concurrency and idempotency
checks) succeeds with a durable append. -/
theorem evidence_policy_enforced_c5 (s : State) (c : Command)
    (hval : validationPasses c)
    (hrbac : rbacAllowed c.emitter_class c.event_type = true) :
    (c.evidence_policy = .REQUIRED → c.evidence_hash = sentinelHash →
      appendEvent s c = (.err .EvidenceRequired, s)) ∧
    (c.evidence_policy = .WAIVER → c.waiver_reason = "" →
      appendEvent s c = (.err .WaiverReasonMissing, s)) ∧
    (c.evidence_policy = .WAIVER → c.waiver_reason ≠ "" →
      chainStatusOf s c.asset_id ≠ .CORRUPTED →
      currentVersion s c.asset_id = c.expected_version →
      idemLookup s c = none →
      appendEvent s c = (.ok (freshResponse s c), successState s c)) := by
  obtain ⟨sch, hs, hp⟩ := hval
  refine ⟨?_, ?_, ?_⟩
  · intro hpol hev
    simp [appendEvent, hs, hp, hrbac, hpol, hev]
  · intro hpol hw
    simp [appendEvent, hs, hp, hrbac, hpol, hw]
  · intro hpol hw hcor hver hidem
    simp [appendEvent, hs, hp, hrbac, hpol, hw, hcor, hver, hidem]

/-- A waiver command with a non-empty reason (the "same request" of the
claim, with the waiver filled in). -/
def cmdWaiver : Command :=
  { cmdLoss with
    evidence_policy := .WAIVER,
    evidence_hash := 0,
    waiver_reason := "label damaged, no photo possible" }

/-- C5 (witness).  The three branches instantiated at the empty store. -/
theorem evidence_policy_enforced_c5_witness :
    appendEvent initState { cmdLoss with evidence_policy := .REQUIRED, evidence_hash := 0 }
      = (.err .EvidenceRequired, initState) ∧
    appendEvent initState { cmdLoss with evidence_policy := .WAIVER, evidence_hash := 0 }
      = (.err .WaiverReasonMissing, initState) ∧
    appendEvent initState cmdWaiver
      = (.ok (freshResponse initState cmdWaiver), successState initState cmdWaiver) := by
  refine ⟨?_, ?_, ?_⟩
  · exact (evidence_policy_enforced_c5 initState
      { cmdLoss with evidence_policy := .REQUIRED, evidence_hash := 0 }
      ⟨isObjPayload, rfl, rfl⟩ (by decide)).1 rfl rfl
  · exact (evidence_policy_enforced_c5 initState
      { cmdLoss with evidence_policy := .WAIVER, evidence_hash := 0 }
      ⟨isObjPayload, rfl, rfl⟩ (by decide)).2.1 rfl rfl
  · exact (evidence_policy_enforced_c5 initState cmdWaiver
      ⟨isObjPayload, rfl, rfl⟩ (by decide)).2.2 rfl (by decide) (by decide) rfl rfl

/-! ## C6: version conflict means no partial write -/

/-- C6.  For a command that reaches the concurrency check (its type,
payload, emitter and evidence all validate, and the asset is not
`CORRUPTED`), a mismatch between the current `aggregate_version` of the
asset and `command.expected_version` fails with `VersionConflict` and
performs no partial write: the event store, the projections, the outbox and
the idempotency records are all left exactly as they were. -/
theorem version_conflict_no_partial_write_c6 (s : State) (c : Command)
    (hval : validationPasses c)
    (hrbac : rbacAllowed c.emitter_class c.event_type = true)
    (hev : evidencePasses c)
    (hcor : chainStatusOf s c.asset_id ≠ .CORRUPTED)
    (hver : currentVersion s c.asset_id ≠ c.expected_version) :
    (appendEvent s c).1 = .err .VersionConflict ∧
    (appendEvent s c).2.events = s.events ∧
    (appendEvent s c).2.projections = s.projections ∧
    (appendEvent s c).2.outbox = s.outbox ∧
    (appendEvent s c).2.idem = s.idem := by
  obtain ⟨sch, hs, hp⟩ := hval
  obtain ⟨he1, he2⟩ := hev
  have h : appendEvent s c = (.err .VersionConflict, s) := by
    simp [appendEvent, hs, hp, hrbac, he1, he2, hcor, hver]
  rw [h]
  exact ⟨rfl, rfl, rfl, rfl, rfl⟩

/-- C6 (witness).  A stale `expected_version` against the empty store. -/
theorem version_conflict_no_partial_write_c6_witness :
    (appendEvent initState { cmdLoss with expected_version := 2 }).1
      = .err .VersionConflict ∧
    (appendEvent initState { cmdLoss with expected_version := 2 }).2.events
      = initState.events :=
  ⟨(version_conflict_no_partial_write_c6 initState
      { cmdLoss with expected_version := 2 }
      ⟨isObjPayload, rfl, rfl⟩ (by decide) (by decide) (by decide) (by decide)).1,
   (version_conflict_no_partial_write_c6 initState
      { cmdLoss with expected_version := 2 }
      ⟨isObjPayload, rfl, rfl⟩ (by decide) (by decide) (by decide) (by decide)).2.1⟩

/-! ## C4: the closed set of emitter classes -/

/-- Translated from `db/schema.sql` line 18: the `event_store` CHECK
constraint `emitter_class IN ('HUMAN','SYSTEM','LEDGER_EXTERNAL')` — a row
can only be stored if its `emitter_class` passes this check. -/
def emitterClassCheck (s : String) : Bool :=
  ["HUMAN", "SYSTEM", "LEDGER_EXTERNAL"].contains s

/-- C4 (counterexample).  The claim says the storable emitter classes are
exactly `HUMAN`, `SYSTEM`, `EXTERNAL_AUTHORITY`.  The DDL CHECK constraint
disagrees on the third class: `LEDGER_EXTERNAL` is storable but is none of
the three claimed values, and `EXTERNAL_AUTHORITY` itself is rejected by the
constraint. -/
theorem emitter_classes_c4_counterexample :
    emitterClassCheck "LEDGER_EXTERNAL" = true ∧
    ¬("LEDGER_EXTERNAL" = "HUMAN" ∨ "LEDGER_EXTERNAL" = "SYSTEM" ∨
      "LEDGER_EXTERNAL" = "EXTERNAL_AUTHORITY") ∧
    emitterClassCheck "EXTERNAL_AUTHORITY" = false := by
  refine ⟨rfl, ?_, rfl⟩
  decide

/-- C4 (amended).  Every stored event's `emitter_class` is one of exactly
`HUMAN`, `SYSTEM`, `LEDGER_EXTERNAL`: the `event_store` CHECK constraint
accepts a value if and only if it is one of those three strings, so an event
with any other `emitter_class` cannot be stored. -/
theorem emitter_classes_c4 (s : String) :
    emitterClassCheck s = true ↔
      (s = "HUMAN" ∨ s = "SYSTEM" ∨ s = "LEDGER_EXTERNAL") := by
  simp [emitterClassCheck, List.contains_eq_any_beq, or_comm, or_left_comm]

/-! ## C7: the chain-status state machine per asset -/

/-- Chain status looked up in a projection list (the DDL default `VALID`
when no row exists). -/
def statusOf (ps : List Projection) (a : Nat) : ChainStatus :=
  match ps.find? (fun p => p.asset_id == a) with
  | some p => p.chain_status
  | none => .VALID

theorem chainStatusOf_eq_statusOf (s : State) (a : Nat) :
    chainStatusOf s a = statusOf s.projections a := rfl

theorem applyEvent_asset_id (p : Projection) (e : StoredEvent) :
    (applyEvent p e).asset_id = p.asset_id := by
  unfold applyEvent
  split <;> rfl

theorem applyEvent_chain_status (p : Projection) (e : StoredEvent) :
    (applyEvent p e).chain_status = p.chain_status := by
  unfold applyEvent
  split <;> rfl

theorem statusOf_map (ps : List Projection) (f : Projection → Projection)
    (hid : ∀ p, (f p).asset_id = p.asset_id)
    (hcs : ∀ p, (f p).chain_status = p.chain_status) (a : Nat) :
    statusOf (ps.map f) a = statusOf ps a := by
  induction ps with
  | nil => rfl
  | cons p ps ih =>
      unfold statusOf
      simp only [List.map_cons, List.find?, hid]
      cases h : (p.asset_id == a) with
      | true => simp [hcs]
      | false => exact ih

theorem statusOf_upsert (ps : List Projection) (e : StoredEvent) (a : Nat) :
    statusOf (upsertProjection ps e) a = statusOf ps a := by
  unfold upsertProjection
  split
  · exact statusOf_map ps _
      (fun p => by split <;> simp [applyEvent_asset_id])
      (fun p => by split <;> simp [applyEvent_chain_status]) a
  · unfold statusOf
    rw [List.find?_append]
    cases hf : ps.find? (fun p => p.asset_id == a) with
    | some p => simp
    | none =>
        simp only [Option.none_or]
        simp only [List.find?]
        cases ha : ((initProjection e).asset_id == a) with
        | true => rfl
        | false => rfl

/-- Setting one asset's rows to `CORRUPTED` either leaves an asset's status
as it was or makes it `CORRUPTED`. -/
theorem statusOf_corrupt (ps : List Projection) (x a : Nat) :
    statusOf (ps.map (fun p =>
        if p.asset_id == x then { p with chain_status := ChainStatus.CORRUPTED } else p)) a
      = statusOf ps a ∨
    statusOf (ps.map (fun p =>
        if p.asset_id == x then { p with chain_status := ChainStatus.CORRUPTED } else p)) a
      = .CORRUPTED := by
  induction ps with
  | nil => left; rfl
  | cons p ps ih =>
      have hid : (if p.asset_id == x then
          { p with chain_status := ChainStatus.CORRUPTED } else p).asset_id = p.asset_id := by
        split <;> rfl
      unfold statusOf
      simp only [List.map_cons, List.find?, hid]
      cases h : (p.asset_id == a) with
      | true =>
          by_cases hx : (p.asset_id == x) = true
          · right; simp [hx]
          · left; simp [hx]
      | false => exact ih

theorem chainStatusOf_appendEvent (s : State) (c : Command) (a : Nat) :
    chainStatusOf (appendEvent s c).2 a = chainStatusOf s a := by
  rcases appendEvent_state_cases s c with h | h
  · rw [h]
  · rw [h]
    exact statusOf_upsert s.projections (freshEvent s c) a

/-- One step never moves a status except from `VALID` to `CORRUPTED`. -/
theorem chainStatusOf_step (s : State) (op : Op) (a : Nat) :
    chainStatusOf (step s op) a = chainStatusOf s a ∨
      (chainStatusOf s a = .VALID ∧ chainStatusOf (step s op) a = .CORRUPTED) := by
  cases op with
  | append c => left; exact chainStatusOf_appendEvent s c a
  | tamper b v q => left; rfl
  | verify b =>
      simp only [step]
      split
      · left; rfl
      · rcases statusOf_corrupt s.projections b a with h | h
        · left; exact h
        · cases hs : chainStatusOf s a with
          | VALID => right; exact ⟨rfl, h⟩
          | CORRUPTED => left; exact h

/-- A corrupted asset rejects every append without touching the state. -/
theorem appendEvent_corrupted_rejects (s : State) (c : Command)
    (hcor : chainStatusOf s c.asset_id = .CORRUPTED) :
    (∃ e, (appendEvent s c).1 = .err e) ∧ (appendEvent s c).2 = s := by
  unfold appendEvent
  repeat' split
  all_goals first
    | exact ⟨⟨_, rfl⟩, rfl⟩
    | (exfalso; simp_all)

/-- C7.  Per asset the `chain_status` machine admits only the transition
`VALID → CORRUPTED` (a chain-verification failure), `CORRUPTED` is terminal
under every operation (append, verification audit, out-of-band tamper — no
automatic repair exists), every write/append for a `CORRUPTED` asset is
rejected with the state untouched, and reads are still served: the
verification step never changes the stored events, and a `CORRUPTED` asset
still has its projection row and its event list returned by `readAsset`. -/
theorem chain_status_lifecycle_c7 (s : State) (op : Op) (a : Nat) (c : Command) :
    (chainStatusOf (step s op) a ≠ chainStatusOf s a →
      chainStatusOf s a = .VALID ∧ chainStatusOf (step s op) a = .CORRUPTED) ∧
    (chainStatusOf s a = .CORRUPTED → chainStatusOf (step s op) a = .CORRUPTED) ∧
    (c.asset_id = a → chainStatusOf s a = .CORRUPTED →
      (∃ e, (appendEvent s c).1 = .err e) ∧ (appendEvent s c).2 = s) ∧
    (readAsset (step s (.verify a)) a).2 = (readAsset s a).2 ∧
    (chainStatusOf s a = .CORRUPTED →
      ∃ p, (readAsset s a).1 = some p ∧ p.chain_status = .CORRUPTED) := by
  refine ⟨?_, ?_, ?_, ?_, ?_⟩
  · intro hne
    rcases chainStatusOf_step s op a with h | h
    · exact absurd h hne
    · exact h
  · intro hcor
    rcases chainStatusOf_step s op a with h | h
    · rw [h, hcor]
    · exact h.2
  · intro ha hcor
    subst ha
    exact appendEvent_corrupted_rejects s c hcor
  · show eventsFor (step s (.verify a)) a = eventsFor s a
    simp only [step]
    split
    · rfl
    · rfl
  · intro hcor
    unfold chainStatusOf at hcor
    revert hcor
    unfold readAsset
    cases hp : projFor s a with
    | some p =>
        intro hcor
        exact ⟨p, rfl, hcor⟩
    | none =>
        intro hcor
        cases hcor

/-- C7 (witness).  The lifecycle instantiated at a concrete corrupted state,
a verification step and a concrete append command. -/
theorem chain_status_lifecycle_c7_witness :
    chainStatusOf (step corruptedState (.verify 1)) 1 = .CORRUPTED ∧
    (∃ e, (appendEvent corruptedState cmdLoss).1 = .err e) ∧
    (appendEvent corruptedState cmdLoss).2 = corruptedState ∧
    (∃ p, (readAsset corruptedState 1).1 = some p ∧ p.chain_status = .CORRUPTED) := by
  refine ⟨?_, ?_, ?_, ?_⟩
  · exact (chain_status_lifecycle_c7 corruptedState (.verify 1) 1 cmdLoss).2.1 rfl
  · exact ((chain_status_lifecycle_c7 corruptedState (.verify 1) 1 cmdLoss).2.2.1 rfl rfl).1
  · exact ((chain_status_lifecycle_c7 corruptedState (.verify 1) 1 cmdLoss).2.2.1 rfl rfl).2
  · exact (chain_status_lifecycle_c7 corruptedState (.verify 1) 1 cmdLoss).2.2.2.2 rfl

/-! ## C8: verifyChain returns VALID exactly on unbroken chains -/

theorem prevHashAt_cons (g : Nat) (x : StoredEvent) (rest : List StoredEvent)
    (i : Nat) :
    prevHashAt g (x :: rest) (i + 1) = prevHashAt x.event_hash rest i := by
  cases i with
  | zero => rfl
  | succ i => rfl

theorem chainOkFrom_cons (g : Nat) (e : StoredEvent) (rest : List StoredEvent) :
    chainOkFrom g (e :: rest) ↔
      stepOkB g e = true ∧ chainOkFrom e.event_hash rest := by
  constructor
  · intro h
    refine ⟨h 0 e rfl, ?_⟩
    intro i e2 hi
    have h2 := h (i + 1) e2 (by simpa using hi)
    rwa [prevHashAt_cons] at h2
  · rintro ⟨h0, h⟩ i e2 hi
    cases i with
    | zero =>
        injection hi with hi
        subst hi
        exact h0
    | succ i =>
        rw [prevHashAt_cons]
        exact h i e2 (by simpa using hi)

theorem verifyChainFrom_spec (evs : List StoredEvent) (g : Nat) :
    (verifyChainFrom g evs = .valid ↔ chainOkFrom g evs) ∧
    (∀ v, verifyChainFrom g evs = .brokenAt v →
      ∃ i e, evs.get? i = some e ∧ v = e.aggregate_version ∧
        stepOkB (prevHashAt g evs i) e = false ∧
        ∀ j e2, j < i → evs.get? j = some e2 →
          stepOkB (prevHashAt g evs j) e2 = true) := by
  induction evs generalizing g with
  | nil =>
      constructor
      · constructor
        · intro _ i e hi
          cases hi
        · intro _
          rfl
      · intro v hv
        cases hv
  | cons e rest ih =>
      by_cases hok : stepOkB g e = true
      · constructor
        · rw [show verifyChainFrom g (e :: rest)
              = verifyChainFrom e.event_hash rest by simp [verifyChainFrom, hok],
            chainOkFrom_cons]
          simp only [hok, true_and]
          exact (ih e.event_hash).1
        · intro v hv
          rw [show verifyChainFrom g (e :: rest)
              = verifyChainFrom e.event_hash rest by simp [verifyChainFrom, hok]] at hv
          obtain ⟨i, e2, hget, hva, hbad, hfirst⟩ := (ih e.event_hash).2 v hv
          refine ⟨i + 1, e2, by simpa using hget, hva, ?_, ?_⟩
          · rwa [prevHashAt_cons]
          · intro j e3 hj hje
            cases j with
            | zero =>
                injection hje with hje
                subst hje
                exact hok
            | succ j =>
                rw [prevHashAt_cons]
                exact hfirst j e3 (by omega) (by simpa using hje)
      · have hfalse : stepOkB g e = false := by
          revert hok
          cases stepOkB g e <;> simp
        constructor
        · rw [show verifyChainFrom g (e :: rest)
              = .brokenAt e.aggregate_version by simp [verifyChainFrom, hfalse]]
          constructor
          · intro hv
            cases hv
          · intro h
            exact absurd (h 0 e rfl) (by simp [prevHashAt, hfalse])
        · intro v hv
          rw [show verifyChainFrom g (e :: rest)
              = .brokenAt e.aggregate_version by simp [verifyChainFrom, hfalse]] at hv
          injection hv with hv
          refine ⟨0, e, rfl, hv.symm, hfalse, ?_⟩
          intro j _ hj
          omega

/-- C8.  `verifyChain`, applied to an asset's events in ascending version
order, returns `VALID` exactly when the declarative chain property holds:
every event's stored `event_hash` recomputes via `computeEventHash` from its
stored fields, every event after the first has `prev_event_hash` equal to
its predecessor's `event_hash`, and the first event's `prev_event_hash`
equals the fixed genesis constant (`prevHashAt genesisHash events 0`; the
constant is a fixed hash value, not an empty or null placeholder).
Otherwise it returns `brokenAt` the `aggregate_version` of the first event
whose link check fails. -/
theorem verify_chain_characterization_c8 (events : List StoredEvent) :
    (verifyChain events = .valid ↔ chainOkFrom genesisHash events) ∧
    (∀ v, verifyChain events = .brokenAt v →
      ∃ i e, events.get? i = some e ∧ v = e.aggregate_version ∧
        stepOkB (prevHashAt genesisHash events i) e = false ∧
        ∀ j e2, j < i → events.get? j = some e2 →
          stepOkB (prevHashAt genesisHash events j) e2 = true) :=
  verifyChainFrom_spec events genesisHash

/-- A stored row whose `event_hash` (0) does not recompute from its fields:
the chain must break at its version, 1. -/
def badEvent : StoredEvent :=
  { event_id := 0,
    asset_id := 1,
    entity_id := 7,
    aggregate_version := 1,
    event_type := "ASSET_LOSS_REPORTED",
    emitter_class := .HUMAN,
    emitter_id := "user-1",
    occurred_at := 0,
    evidence_policy := .OPTIONAL,
    evidence_hash := 5,
    waiver_reason := "",
    payload := .obj [],
    prev_event_hash := genesisHash,
    event_hash := 0,
    signature := 0 }

/-- C8 (witness).  On the concrete one-event list whose stored hash does not
recompute, `verifyChain` reports the break at version 1 and the theorem
locates it at index 0. -/
theorem verify_chain_characterization_c8_witness :
    verifyChain [badEvent] = .brokenAt 1 ∧
    ∃ i e, [badEvent].get? i = some e ∧ 1 = e.aggregate_version ∧
      stepOkB (prevHashAt genesisHash [badEvent] i) e = false ∧
      ∀ j e2, j < i → [badEvent].get? j = some e2 →
        stepOkB (prevHashAt genesisHash [badEvent] j) e2 = true := by
  have h : verifyChain [badEvent] = .brokenAt 1 := by decide
  exact ⟨h, (verify_chain_characterization_c8 [badEvent]).2 1 h⟩

/-! ## C9: the error backoff of `useLiveAsset` in OpsDashboard -/

/-- Translated from `src/frontend/src/components/OpsDashboard.tsx`:
`backoffRef.current` starts at 0 (line 69); a successful fetch resets it to
0 (line 109, "Reset backoff on success"); a fetch failure executes line 119,
`backoffRef.current = Math.min(backoffRef.current === 0 ? 1000 :
backoffRef.current * 2, 15000)`.  All values are integral milliseconds. -/
def backoffStep (backoff : Nat) (fetchSucceeded : Bool) : Nat :=
  if fetchSucceeded then 0
  else min (if backoff = 0 then 1000 else backoff * 2) 15000

/-- The backoff value after a sequence of fetch outcomes (`true` =
successful fetch, `false` = fetch error), starting from the initial 0. -/
def backoffAfter (outcomes : List Bool) : Nat :=
  outcomes.foldl backoffStep 0

theorem backoffStep_le (b : Nat) (o : Bool) :
    backoffStep b o ≤ 15000 := by
  cases o with
  | true => simp [backoffStep]
  | false =>
      unfold backoffStep
      simp only [Bool.false_eq_true, if_false]
      exact min_le_right _ _

theorem foldl_backoffStep_le (outcomes : List Bool) (b : Nat) (hb : b ≤ 15000) :
    outcomes.foldl backoffStep b ≤ 15000 := by
  induction outcomes generalizing b with
  | nil => exact hb
  | cons o os ih => exact ih _ (backoffStep_le b o)

/-- C9.  The error backoff of `useLiveAsset` always stays within
`[0 ms, 15000 ms]`: it starts at 0, the first fetch failure sets it to
1000 ms, each consecutive failure sets it to `min(2 × previous, 15000)`,
every successful fetch resets it to 0, and along any sequence of fetch
outcomes the value never exceeds 15000 (being a `Nat`, it is never below
0). -/
theorem backoff_bounded_c9 :
    backoffAfter [] = 0 ∧
    backoffStep 0 false = 1000 ∧
    (∀ b, backoffStep b true = 0) ∧
    (∀ b, b ≠ 0 → backoffStep b false = min (b * 2) 15000) ∧
    (∀ outcomes, backoffAfter outcomes ≤ 15000) := by
  refine ⟨rfl, rfl, ?_, ?_, ?_⟩
  · intro b
    simp [backoffStep]
  · intro b hb
    simp [backoffStep, hb]
  · intro outcomes
    exact foldl_backoffStep_le outcomes 0 (by omega)

/-- C9 (witness).  The doubling rule applied at the concrete value 1000, and
the bound on a concrete error burst. -/
theorem backoff_bounded_c9_witness :
    backoffStep 1000 false = min 2000 15000 ∧
    backoffAfter [false, false, false, false, false] ≤ 15000 :=
  ⟨backoff_bounded_c9.2.2.2.1 1000 (by omega),
   backoff_bounded_c9.2.2.2.2 [false, false, false, false, false]⟩

/-! ## C10: `recordBarcodeScan` derives its idempotency key from the clock -/

/-- Little-endian decimal digits of a number, with explicit fuel so the
definition computes by kernel reduction (auxiliary). -/
def decDigitsAux : Nat → Nat → List Char
  | 0, _ => []
  | fuel + 1, n =>
      if n < 10 then [Nat.digitChar n]
      else Nat.digitChar (n % 10) :: decDigitsAux fuel (n / 10)

def decDigits (n : Nat) : List Char :=
  decDigitsAux (n + 1) n

theorem decDigitsAux_fuel (f : Nat) :
    ∀ g n, n < f → n < g → decDigitsAux f n = decDigitsAux g n := by
  induction f with
  | zero =>
      intro g n hf
      omega
  | succ f ih =>
      intro g n hf hg
      cases g with
      | zero => omega
      | succ g =>
          by_cases h10 : n < 10
          · simp [decDigitsAux, h10]
          · simp only [decDigitsAux, h10, if_false]
            have hlt : n / 10 < n := Nat.div_lt_self (by omega) (by omega)
            rw [ih g (n / 10) (by omega) (by omega)]

/-- The recurrence of `decDigits`, free of fuel. -/
theorem decDigits_eq (n : Nat) :
    decDigits n = if n < 10 then [Nat.digitChar n]
      else Nat.digitChar (n % 10) :: decDigits (n / 10) := by
  unfold decDigits
  by_cases h10 : n < 10
  · simp [decDigitsAux, h10]
  · simp only [decDigitsAux, h10, if_false]
    have hlt : n / 10 < n := Nat.div_lt_self (by omega) (by omega)
    rw [decDigitsAux_fuel n (n / 10 + 1) (n / 10) (by omega) (by omega)]
    rfl

theorem decDigits_ne_nil (n : Nat) : decDigits n ≠ [] := by
  rw [decDigits_eq]
  split <;> simp

theorem digitChar_inj : ∀ a < 10, ∀ b < 10,
    Nat.digitChar a = Nat.digitChar b → a = b := by
  decide

theorem decDigits_inj : ∀ a b : Nat, decDigits a = decDigits b → a = b := by
  intro a
  induction a using Nat.strong_induction_on with
  | _ a ih =>
      intro b h
      rw [decDigits_eq a, decDigits_eq b] at h
      by_cases ha : a < 10 <;> by_cases hb : b < 10
      · simp only [ha, hb, if_true] at h
        injection h with h
        exact digitChar_inj a ha b hb h
      · simp only [ha, hb, if_true, if_false] at h
        injection h with _ h
        exact absurd h.symm (decDigits_ne_nil _)
      · simp only [ha, hb, if_true, if_false] at h
        injection h with _ h
        exact absurd h (decDigits_ne_nil _)
      · simp only [ha, hb, if_false] at h
        injection h with h1 h2
        have hd : a / 10 = b / 10 :=
          ih (a / 10) (Nat.div_lt_self (by omega) (by omega)) (b / 10) h2
        have hm : a % 10 = b % 10 :=
          digitChar_inj (a % 10) (by omega) (b % 10) (by omega) h1
        omega

/-- The decimal string a JavaScript template literal produces for a
non-negative integer (most-significant digit first). -/
def decString (n : Nat) : String :=
  (decDigits n).reverse.asString

theorem decString_inj (a b : Nat) (h : decString a = decString b) : a = b := by
  unfold decString at h
  have hd : (decDigits a).reverse = (decDigits b).reverse := congrArg String.data h
  exact decDigits_inj a b (List.reverse_injective hd)

/-- Translated from `src/unnamed/part_013` line 136: the idempotency key of
a barcode-scan telemetry event is the template literal
`barcode:${barcode}:${Date.now()}`; `nowMs` stands for `Date.now()`. -/
def recordBarcodeScanKey (barcode : String) (nowMs : Nat) : String :=
  "barcode:" ++ barcode ++ ":" ++ decString nowMs

/-- The telemetry event built by `recordBarcodeScan`
(`src/unnamed/part_013` lines 114-138).  The `quantity` and `confidence`
payload fields are JavaScript floating-point numbers and do not affect the
key; the fields relevant to the claim are kept. -/
structure BarcodeScanEvent where
  event_type : String
  wallet_id : Option String
  barcode : String
  product_id : String
  product_name : String
  location_tag : Option String
  scan_method : String
  device_type : String
  idempotency_key : String

def recordBarcodeScan (barcode productId productName : String)
    (locationTag walletId : Option String) (nowMs : Nat) : BarcodeScanEvent :=
  { event_type := "BARCODE_SCAN",
    wallet_id := walletId,
    barcode := barcode,
    product_id := productId,
    product_name := productName,
    location_tag := locationTag,
    scan_method := "barcode",
    device_type := "mobile",
    idempotency_key := recordBarcodeScanKey barcode nowMs }

/-- C10.  `telemetryApi.recordBarcodeScan` derives its idempotency key as
`'barcode:' + barcode + ':' + Date.now()`, a function of the clock rather
than of the request content: two invocations with identical arguments made
at different clock times always generate different keys, so a retry of the
same logical scan is not deduplicated by its idempotency key. -/
theorem barcode_key_from_clock_c10 :
    (∀ barcode productId productName locationTag walletId nowMs,
      (recordBarcodeScan barcode productId productName
          locationTag walletId nowMs).idempotency_key
        = "barcode:" ++ barcode ++ ":" ++ decString nowMs) ∧
    (∀ barcode t1 t2, t1 ≠ t2 →
      recordBarcodeScanKey barcode t1 ≠ recordBarcodeScanKey barcode t2) := by
  constructor
  · intro barcode productId productName locationTag walletId nowMs
    rfl
  · intro barcode t1 t2 hne h
    unfold recordBarcodeScanKey at h
    have hd := congrArg String.data h
    simp only [String.data_append, List.append_assoc] at hd
    have h1 := List.append_cancel_left hd
    have h2 := List.append_cancel_left h1
    have h3 := List.append_cancel_left h2
    exact hne (decString_inj t1 t2 (String.ext h3))

/-- C10 (witness).  The same barcode scanned at two different clock times
gets two different idempotency keys. -/
theorem barcode_key_from_clock_c10_witness :
    recordBarcodeScanKey "0012345" 1000 ≠ recordBarcodeScanKey "0012345" 2000 :=
  barcode_key_from_clock_c10.2 "0012345" 1000 2000 (by omega)
